import Mathlib

/-!
Verification of the transcoderexpress pipeline (src/main.rs): a directory
watcher that enqueues creation events onto an mpsc channel and a consumer
thread that invokes ffmpeg per file.

Embedding notes:
* Paths handed to the worker are OS paths, which may fail UTF-8 conversion;
  `OsPath` models this.  Once converted, a path is a `String`.
* `fileName` embeds `std::path::Path::file_name` for UTF-8 paths: the last
  normal component, where empty components and `.` components are normalized
  away, and a path terminating in `..` (or having no component) yields none.
* Side effects (child-process invocations and log lines) are returned as an
  explicit `Effects` trace; a Rust panic (`unwrap` / `expect`) is the
  `Outcome.panic` constructor carrying the effects performed before the panic.
* The external process runner (`std::process::Command::output`) is a
  parameter `exec : List String → Option RunOutput`; `none` models a launch
  failure (binary not found / exec failure), `some` a process that ran.
* The mpsc channel is FIFO by its contract; the sequence of worker receive
  results is modelled as a list consumed in order.
-/

/-- A path as delivered by the notify watcher (`PathBuf`): either valid UTF-8
or not.  `to_str` succeeds exactly on the UTF-8 case. -/
inductive OsPath where
  | utf8 (s : String)
  | nonUtf8 (bytes : List Nat)
deriving DecidableEq, Repr

/-- Embeds `PathBuf::to_str` (`some` iff the path is valid UTF-8). -/
def osPathToStr : OsPath → Option String
  | .utf8 s => some s
  | .nonUtf8 _ => none

/-- Embeds the `{:?}` debug formatting of a `PathBuf` used in log lines. -/
def OsPath.debugStr : OsPath → String
  | .utf8 s => s
  | .nonUtf8 _ => "<non-utf8 path>"

/-- Split a character list at `/` separators (component decomposition of a
Unix path string). -/
def splitOnSlash : List Char → List (List Char)
  | [] => [[]]
  | c :: cs =>
    match splitOnSlash cs with
    | [] => [[]]
    | g :: gs => if c = '/' then [] :: g :: gs else (c :: g) :: gs

/-- Embeds `Path::new(p).file_name()` for a UTF-8 path: the last component
after normalizing away empty and `.` components; none when that component is
`..` or when there is no component at all (e.g. the root path). -/
def fileName (p : String) : Option String :=
  let comps := (splitOnSlash p.toList).filter (fun c => c ≠ [] && c ≠ ['.'])
  match comps.getLast? with
  | none => none
  | some c => if c = ['.', '.'] then none else some ⟨c⟩

/-- The first element of Rust's `str::split('.')` iterator: characters up to
the first `.` of the list.  (`next()` on a split iterator always yields this
first piece, so the adjacent `unwrap` never panics.) -/
def splitFirstAux : List Char → List Char
  | [] => []
  | c :: cs => if c = '.' then [] else c :: splitFirstAux cs

/-- Embeds `filename.split('.').next().unwrap()` from `transcoder`. -/
def rustSplitFirst (s : String) : String := ⟨splitFirstAux s.toList⟩

/-- Spec-worded stem: the filename portion up to (but not including) the
first `.` character. -/
def specStem (s : String) : String := ⟨s.toList.takeWhile (fun c => c != '.')⟩

/-- Embeds line 36: `format!("{}/{}_transcoded.wav", outpath, filename)`,
where `filename` is the split-at-first-dot stem. -/
def derivedOutfile (outpath fn : String) : String :=
  outpath ++ "/" ++ rustSplitFirst fn ++ "_transcoded.wav"

/-- Embeds the argument list of lines 40-50: the args passed to `ffmpeg`. -/
def ffmpegArgs (path outfile : String) : List String :=
  ["-i", path, "-ac", "1", "-ar", "16000", "-sample_fmt", "s16", outfile]

/-- The result of a child process that ran to completion
(`std::process::Output`): exit-status success flag and captured stderr
(after lossy UTF-8 conversion). -/
structure RunOutput where
  success : Bool
  stderr : String
deriving DecidableEq, Repr

/-- One log line per logging call site in the source, carrying the formatted
data of that site. -/
inductive LogEntry where
  | enqueued (path : String)      -- info: File created, adding to queue
  | sendError (path : String)     -- error: Error sending path
  | procStart (path : String)     -- info: Processing file
  | procDone (path : String)      -- info: Done processing file
  | transcodeOk (outfile : String)   -- info: Transcoding successful, saved to
  | transcodeFail (stderr : String)  -- error: Transcoding failed
  | recvError                     -- error: Error receiving file path.
deriving DecidableEq, Repr

/-- The observable side effects of a run: child-process invocations (argument
vectors passed to `Command`) and emitted log lines, in order. -/
structure Effects where
  invocations : List (List String)
  logs : List LogEntry
deriving DecidableEq, Repr

def Effects.app (a b : Effects) : Effects :=
  ⟨a.invocations ++ b.invocations, a.logs ++ b.logs⟩

/-- Result of running a piece of the program: either a Rust panic (with the
panic message and the effects performed before panicking) or normal
completion with its effects. -/
inductive Outcome where
  | panic (msg : String) (eff : Effects)
  | ok (eff : Effects)
deriving DecidableEq, Repr

/-- The effects performed, whether or not the run ended in a panic. -/
def Outcome.effects : Outcome → Effects
  | .panic _ e => e
  | .ok e => e

/-- Prepend already-performed effects to an outcome (sequencing). -/
def Outcome.seq (e : Effects) : Outcome → Outcome
  | .panic m e2 => .panic m (e.app e2)
  | .ok e2 => .ok (e.app e2)

def unwrapPanicMsg : String := "called Option unwrap on a None value"

def expectFfmpegMsg : String := "Failed to execute ffmpeg"

/-- Embeds `fn transcoder(path: &str, outpath: &str)` (lines 33-62).
`exec` is the child-process runner; `none` models a launch failure, which the
source turns into a panic via `.expect("Failed to execute ffmpeg")`.
`file_name().unwrap()` panics when the path has no filename component; the
adjacent `to_str().unwrap()` cannot fail because `path` is already a valid
UTF-8 `&str`. -/
def transcoder (path outpath : String) (exec : List String → Option RunOutput) :
    Outcome :=
  match fileName path with
  | none => .panic unwrapPanicMsg ⟨[], []⟩
  | some fn =>
    let outfile := derivedOutfile outpath fn
    let args := ffmpegArgs path outfile
    match exec args with
    | none => .panic expectFfmpegMsg ⟨[args], []⟩
    | some out =>
      if out.success then .ok ⟨[args], [.transcodeOk outfile]⟩
      else .ok ⟨[args], [.transcodeFail out.stderr]⟩

/-- One result of `rx.recv()`: a received path, or a receive error (sender
side disconnected). -/
inductive RecvResult where
  | ok (p : OsPath)
  | err
deriving DecidableEq, Repr

/-- One iteration of the `consumer_thread` loop body (lines 66-74): on a
received path, log start, convert with `to_str().unwrap()` (panics on
non-UTF-8), run `transcoder`, log done; on a receive error, log it. -/
def workerStep (outpath : String) (exec : List String → Option RunOutput) :
    RecvResult → Outcome
  | .err => .ok ⟨[], [.recvError]⟩
  | .ok p =>
    let lg0 : Effects := ⟨[], [.procStart p.debugStr]⟩
    match osPathToStr p with
    | none => .panic unwrapPanicMsg lg0
    | some s =>
      match transcoder s outpath exec with
      | .panic m e => .panic m (lg0.app e)
      | .ok e => .ok ((lg0.app e).app ⟨[], [.procDone p.debugStr]⟩)

/-- The `consumer_thread` loop run over a finite sequence of receive results
(the loop itself never exits; a panic aborts the thread). -/
def workerRun (outpath : String) (exec : List String → Option RunOutput) :
    List RecvResult → Outcome
  | [] => .ok ⟨[], []⟩
  | r :: rs =>
    match workerStep outpath exec r with
    | .panic m e => .panic m e
    | .ok e => Outcome.seq e (workerRun outpath exec rs)

/-- The creation subkinds of the notify crate (`CreateKind`). -/
inductive CreateKind where
  | any | file | folder | otherKind
deriving DecidableEq, Repr

/-- The event kinds of the notify crate (`EventKind`); the source matches
only on `Create(_)`. -/
inductive EventKind where
  | anyKind
  | access
  | create (k : CreateKind)
  | modify
  | remove
  | otherKind
deriving DecidableEq, Repr

/-- A notify `Event`: a kind plus the paths it reports. -/
structure Event where
  kind : EventKind
  paths : List OsPath
deriving DecidableEq, Repr

/-- The per-path send loop of `handle_event` (lines 85-90): for each path,
log, attempt `tx.send`; on failure log the error.  Returns the successfully
enqueued paths and the log lines. -/
def sendAll (sendOk : OsPath → Bool) : List OsPath → List OsPath × List LogEntry
  | [] => ([], [])
  | p :: ps =>
    let rest := sendAll sendOk ps
    if sendOk p then (p :: rest.1, .enqueued p.debugStr :: rest.2)
    else (rest.1, .enqueued p.debugStr :: .sendError p.debugStr :: rest.2)

/-- Embeds `fn handle_event` (lines 78-92): only `Create(_)` events send;
every other kind is a no-op. -/
def handle_event (ev : Event) (sendOk : OsPath → Bool) :
    List OsPath × List LogEntry :=
  match ev.kind with
  | .create _ => sendAll sendOk ev.paths
  | _ => ([], [])

/-- Outcome of the startup wiring in `main`. -/
inductive MainOutcome where
  | panicked (msg : String)
  | runs (watcherActive : Bool)
deriving DecidableEq, Repr

/-- Embeds the watcher wiring of `main` (lines 109-126):
`recommended_watcher(...).expect("Failed to create watcher")` panics when
watcher creation fails; the result of `watcher.watch(...)` is discarded by
`let _ =`, after which the process runs its idle loop regardless. -/
def mainRun (createRes : Except String Unit) (watchRes : Except String Unit) :
    MainOutcome :=
  match createRes with
  | .error _ => .panicked "Failed to create watcher"
  | .ok _ =>
    match watchRes with
    | .ok _ => .runs true
    | .error _ => .runs false

/-- A process runner that always runs and exits successfully. -/
def execOkRun : List String → Option RunOutput := fun _ => some ⟨true, ""⟩

/-- A process runner that always runs and exits non-zero with stderr text. -/
def execFailRun (stderrText : String) : List String → Option RunOutput :=
  fun _ => some ⟨false, stderrText⟩

/-- A process runner whose launch always fails (binary not found). -/
def execLaunchFail : List String → Option RunOutput := fun _ => none

/-- The split-iterator first element is the take-while-not-dot prefix. -/
theorem splitFirstAux_eq_takeWhile (l : List Char) :
    splitFirstAux l = l.takeWhile (fun c => c != '.') := by
  induction l with
  | nil => rfl
  | cons c cs ih =>
    by_cases h : c = '.'
    · simp [splitFirstAux, List.takeWhile, h]
    · have hb : (c != '.') = true := by simp [h]
      simp [splitFirstAux, List.takeWhile, h, hb, ih]

/-- The source stem computation agrees with the spec-worded stem. -/
theorem rustSplitFirst_eq_specStem (s : String) :
    rustSplitFirst s = specStem s :=
  congrArg String.mk (splitFirstAux_eq_takeWhile s.toList)

/-- Sequencing effects onto an outcome prepends them to its effects. -/
theorem Outcome.seq_effects (e : Effects) (o : Outcome) :
    (Outcome.seq e o).effects = e.app o.effects := by
  cases o <;> rfl

/-- Unfolding of `transcoder` on a path with a filename component. -/
theorem transcoder_eq (path outpath fn : String)
    (exec : List String → Option RunOutput) (h : fileName path = some fn) :
    transcoder path outpath exec =
      match exec (ffmpegArgs path (derivedOutfile outpath fn)) with
      | none =>
        Outcome.panic expectFfmpegMsg
          ⟨[ffmpegArgs path (derivedOutfile outpath fn)], []⟩
      | some out =>
        if out.success then
          Outcome.ok ⟨[ffmpegArgs path (derivedOutfile outpath fn)],
            [LogEntry.transcodeOk (derivedOutfile outpath fn)]⟩
        else
          Outcome.ok ⟨[ffmpegArgs path (derivedOutfile outpath fn)],
            [LogEntry.transcodeFail out.stderr]⟩ := by
  unfold transcoder
  rw [h]

/-- Claim C1: for every Job processed, the derived output path equals
outputDir/stem_transcoded.wav, where stem is the filename portion up to (but
not including) the first dot: the single ffmpeg invocation receives exactly
that output path. -/
theorem claim1_output_path (path outpath fn : String)
    (exec : List String → Option RunOutput) (h : fileName path = some fn) :
    (transcoder path outpath exec).effects.invocations =
      [ffmpegArgs path (outpath ++ "/" ++ specStem fn ++ "_transcoded.wav")] := by
  have hst : derivedOutfile outpath fn =
      outpath ++ "/" ++ specStem fn ++ "_transcoded.wav" := by
    unfold derivedOutfile
    rw [rustSplitFirst_eq_specStem]
  rw [transcoder_eq path outpath fn exec h]
  cases hx : exec (ffmpegArgs path (derivedOutfile outpath fn)) with
  | none => simp [Outcome.effects, hst]
  | some out => cases hsucc : out.success <;> simp [Outcome.effects, hst, hsucc]

/-- Claim C1 witness: input speech.v2.mp3 yields output
out/speech_transcoded.wav. -/
theorem claim1_witness :
    fileName "speech.v2.mp3" = some "speech.v2.mp3"
    ∧ (transcoder "speech.v2.mp3" "out" execOkRun).effects.invocations =
        [ffmpegArgs "speech.v2.mp3"
          ("out" ++ "/" ++ specStem "speech.v2.mp3" ++ "_transcoded.wav")] :=
  ⟨rfl, claim1_output_path "speech.v2.mp3" "out" "speech.v2.mp3" execOkRun rfl⟩

/-- Claim C9: the external transcoder is invoked with exactly the fixed
argument vector: input path, -ac 1, -ar 16000, -sample_fmt s16, derived
output path, in that order. -/
theorem claim9_fixed_args (path outpath fn : String)
    (exec : List String → Option RunOutput) (h : fileName path = some fn) :
    (transcoder path outpath exec).effects.invocations =
      [["-i", path, "-ac", "1", "-ar", "16000", "-sample_fmt", "s16",
        derivedOutfile outpath fn]] := by
  rw [transcoder_eq path outpath fn exec h]
  cases hx : exec (ffmpegArgs path (derivedOutfile outpath fn)) with
  | none => simp [Outcome.effects, ffmpegArgs]
  | some out =>
    cases hsucc : out.success <;> simp [Outcome.effects, ffmpegArgs, hsucc]

/-- Claim C9 witness: concrete invocation for input a.wav. -/
theorem claim9_witness :
    fileName "a.wav" = some "a.wav"
    ∧ (transcoder "a.wav" "out" execOkRun).effects.invocations =
        [["-i", "a.wav", "-ac", "1", "-ar", "16000", "-sample_fmt", "s16",
          derivedOutfile "out" "a.wav"]] :=
  ⟨rfl, claim9_fixed_args "a.wav" "out" "a.wav" execOkRun rfl⟩

/-- Claim C10: some Job paths panic before the external process is invoked:
a path with no final filename component (the root, or one terminating in ..)
panics at the file_name unwrap inside the Transcode step, and the Worker
panics at to_str unwrap on a non-UTF-8 path; in each case the invocation
trace is empty, so the external process was never invoked. -/
theorem claim10_panics :
    (transcoder "/" "out" execOkRun = Outcome.panic unwrapPanicMsg ⟨[], []⟩)
    ∧ (transcoder "dir/.." "out" execOkRun =
        Outcome.panic unwrapPanicMsg ⟨[], []⟩)
    ∧ (workerStep "out" execOkRun (RecvResult.ok (OsPath.nonUtf8 [255])) =
        Outcome.panic unwrapPanicMsg
          ⟨[], [LogEntry.procStart "<non-utf8 path>"]⟩) :=
  ⟨rfl, rfl, rfl⟩

/-- Claim C2 counterexample: with a runner whose launch always fails, the
Worker thread panics (Failed to execute ffmpeg) on the first Job instead of
reporting a per-job Failure, and the second queued Job is never processed. -/
theorem claim2_counterexample :
    workerRun "out" execLaunchFail
      [RecvResult.ok (OsPath.utf8 "a.mp3"), RecvResult.ok (OsPath.utf8 "b.mp3")] =
      Outcome.panic expectFfmpegMsg
        ⟨[["-i", "a.mp3", "-ac", "1", "-ar", "16000", "-sample_fmt", "s16",
           "out/a_transcoded.wav"]],
         [LogEntry.procStart "a.mp3"]⟩ := rfl

/-- Claim C2 (amended): if the external binary cannot be started, the expect
call panics, crashing the Worker thread; the launch failure is not reported
as a per-job Failure and subsequent Jobs are not processed. -/
theorem claim2_amended_launch_panics (outpath : String)
    (exec : List String → Option RunOutput) (p : OsPath) (s fn : String)
    (rs : List RecvResult)
    (h1 : osPathToStr p = some s) (h2 : fileName s = some fn)
    (h3 : exec (ffmpegArgs s (derivedOutfile outpath fn)) = none) :
    workerRun outpath exec (RecvResult.ok p :: rs) =
      Outcome.panic expectFfmpegMsg
        ⟨[ffmpegArgs s (derivedOutfile outpath fn)],
         [LogEntry.procStart p.debugStr]⟩ := by
  simp [workerRun, workerStep, transcoder, h1, h2, h3, Effects.app]

/-- Claim C2 witness: concrete launch failure on c.mp3. -/
theorem claim2_witness :
    workerRun "out" execLaunchFail [RecvResult.ok (OsPath.utf8 "c.mp3")] =
      Outcome.panic expectFfmpegMsg
        ⟨[ffmpegArgs "c.mp3" (derivedOutfile "out" "c.mp3")],
         [LogEntry.procStart "c.mp3"]⟩ :=
  claim2_amended_launch_panics "out" execLaunchFail (OsPath.utf8 "c.mp3")
    "c.mp3" "c.mp3" [] rfl rfl rfl

/-- Claim C3 counterexample: when watcher creation succeeds but the watch
subscription on the input directory fails, the process does not exit: it
keeps running, merely without an active watcher. -/
theorem claim3_counterexample :
    mainRun (Except.ok ()) (Except.error "No such file or directory") =
      MainOutcome.runs false := rfl

/-- Claim C3 (amended): only a failure to create the watcher itself panics
the process; an error from subscribing to the input directory is discarded
by the let-underscore binding and the process continues running without an
active watch. -/
theorem claim3_amended_watch_error_ignored (e : String) (w : Except String Unit) :
    mainRun (Except.error e) w = MainOutcome.panicked "Failed to create watcher"
    ∧ mainRun (Except.ok ()) (Except.error e) = MainOutcome.runs false :=
  ⟨rfl, rfl⟩

/-- Claim C4: for every filesystem event whose kind is not a creation event,
the handler enqueues no Job (and emits no log). -/
theorem claim4_noncreate_no_job (ev : Event) (sendOk : OsPath → Bool)
    (h : ∀ k, ev.kind ≠ EventKind.create k) :
    handle_event ev sendOk = ([], []) := by
  obtain ⟨kind, paths⟩ := ev
  cases kind <;> first | rfl | exact absurd rfl (h _)

/-- Claim C4 witness: a modify event with a path enqueues nothing. -/
theorem claim4_witness :
    (∀ k, (Event.mk EventKind.modify [OsPath.utf8 "x.wav"]).kind ≠
      EventKind.create k)
    ∧ handle_event ⟨EventKind.modify, [OsPath.utf8 "x.wav"]⟩ (fun _ => true) =
        ([], []) :=
  And.intro (fun _ h => EventKind.noConfusion h)
    (claim4_noncreate_no_job ⟨EventKind.modify, [OsPath.utf8 "x.wav"]⟩
      (fun _ => true) (fun _ h => EventKind.noConfusion h))

/-- Claim C5: for a creation event, exactly one Job is enqueued per reported
path, in order, with no duplication and no loss (when every send succeeds). -/
theorem claim5_one_job_per_path (k : CreateKind) (paths : List OsPath)
    (sendOk : OsPath → Bool) (h : ∀ p ∈ paths, sendOk p = true) :
    (handle_event ⟨EventKind.create k, paths⟩ sendOk).1 = paths := by
  have key : ∀ ps : List OsPath, (∀ p ∈ ps, sendOk p = true) →
      (sendAll sendOk ps).1 = ps := by
    intro ps
    induction ps with
    | nil => intro _; rfl
    | cons p ps ih =>
      intro hh
      have hp : sendOk p = true := hh p (List.mem_cons_self p ps)
      have hps := ih (fun q hq => hh q (List.mem_cons_of_mem p hq))
      simp [sendAll, hp, hps]
  simpa [handle_event] using key paths h

/-- Claim C5 witness: a creation event for a.wav and b.wav enqueues exactly
those two paths in order. -/
theorem claim5_witness :
    (∀ p ∈ [OsPath.utf8 "a.wav", OsPath.utf8 "b.wav"],
      (fun (_ : OsPath) => true) p = true)
    ∧ (handle_event
        ⟨EventKind.create CreateKind.file,
         [OsPath.utf8 "a.wav", OsPath.utf8 "b.wav"]⟩ (fun _ => true)).1 =
        [OsPath.utf8 "a.wav", OsPath.utf8 "b.wav"] :=
  ⟨fun _ _ => rfl,
   claim5_one_job_per_path CreateKind.file
     [OsPath.utf8 "a.wav", OsPath.utf8 "b.wav"] (fun _ => true)
     (fun _ _ => rfl)⟩

/-- Claim C7: a Transcode execution failure (process ran, exited non-zero) is
contained in that one Job: the stderr text is logged, exactly one invocation
happens (no retry), the done log is still emitted, and the Worker continues
with the remaining queue without panicking. -/
theorem claim7_failure_contained (outpath : String)
    (exec : List String → Option RunOutput) (p : OsPath) (s fn stderrText : String)
    (rs : List RecvResult)
    (h1 : osPathToStr p = some s) (h2 : fileName s = some fn)
    (h3 : exec (ffmpegArgs s (derivedOutfile outpath fn)) =
      some ⟨false, stderrText⟩) :
    workerRun outpath exec (RecvResult.ok p :: rs) =
      Outcome.seq
        ⟨[ffmpegArgs s (derivedOutfile outpath fn)],
         [LogEntry.procStart p.debugStr, LogEntry.transcodeFail stderrText,
          LogEntry.procDone p.debugStr]⟩
        (workerRun outpath exec rs) := by
  simp [workerRun, workerStep, transcoder, h1, h2, h3, Effects.app]

/-- Claim C7 witness: a failing transcode of bad.mp3 (stderr boom) is logged
and the Worker goes on to process the next receive result. -/
theorem claim7_witness :
    workerRun "out" (execFailRun "boom")
      [RecvResult.ok (OsPath.utf8 "bad.mp3"), RecvResult.err] =
      Outcome.seq
        ⟨[ffmpegArgs "bad.mp3" (derivedOutfile "out" "bad.mp3")],
         [LogEntry.procStart "bad.mp3", LogEntry.transcodeFail "boom",
          LogEntry.procDone "bad.mp3"]⟩
        (workerRun "out" (execFailRun "boom") [RecvResult.err]) :=
  claim7_failure_contained "out" (execFailRun "boom") (OsPath.utf8 "bad.mp3")
    "bad.mp3" "bad.mp3" "boom" [RecvResult.err] rfl rfl rfl

/-- Claim C8: the Worker loop never exits on its own: a receive failure is
logged and the loop goes on to the remaining receive results, and a
successful receive logs start, runs the transcode, logs done regardless of
the transcode outcome (success or non-zero exit), and loops. -/
theorem claim8_loop_behavior (outpath : String)
    (exec : List String → Option RunOutput) (rs : List RecvResult) :
    (workerRun outpath exec (RecvResult.err :: rs) =
      Outcome.seq ⟨[], [LogEntry.recvError]⟩ (workerRun outpath exec rs))
    ∧ (∀ (p : OsPath) (s fn : String) (out : RunOutput),
        osPathToStr p = some s → fileName s = some fn →
        exec (ffmpegArgs s (derivedOutfile outpath fn)) = some out →
        workerRun outpath exec (RecvResult.ok p :: rs) =
          Outcome.seq
            ⟨[ffmpegArgs s (derivedOutfile outpath fn)],
             [LogEntry.procStart p.debugStr] ++
               (if out.success then
                 [LogEntry.transcodeOk (derivedOutfile outpath fn)]
                else [LogEntry.transcodeFail out.stderr]) ++
               [LogEntry.procDone p.debugStr]⟩
            (workerRun outpath exec rs)) := by
  constructor
  · rfl
  · intro p s fn out h1 h2 h3
    cases hsucc : out.success <;>
      simp [workerRun, workerStep, transcoder, h1, h2, h3, hsucc, Effects.app]

/-- Claim C8 witness: after a receive error the loop continues, and a
successful receive of a.wav logs start, transcodes, and logs done. -/
theorem claim8_witness :
    (workerRun "out" execOkRun [RecvResult.err] =
      Outcome.seq ⟨[], [LogEntry.recvError]⟩ (workerRun "out" execOkRun []))
    ∧ (workerRun "out" execOkRun [RecvResult.ok (OsPath.utf8 "a.wav")] =
        Outcome.seq
          ⟨[ffmpegArgs "a.wav" (derivedOutfile "out" "a.wav")],
           [LogEntry.procStart "a.wav",
            LogEntry.transcodeOk (derivedOutfile "out" "a.wav"),
            LogEntry.procDone "a.wav"]⟩
          (workerRun "out" execOkRun [])) :=
  And.intro (claim8_loop_behavior "out" execOkRun []).1
    ((claim8_loop_behavior "out" execOkRun []).2 (OsPath.utf8 "a.wav")
      "a.wav" "a.wav" ⟨true, ""⟩ rfl rfl rfl)

/-- The paths of the processing-started log lines, in order. -/
def startsOf (l : List LogEntry) : List String :=
  l.filterMap fun e =>
    match e with
    | .procStart p => some p
    | _ => none

/-- `startsOf` distributes over append. -/
theorem startsOf_append (a b : List LogEntry) :
    startsOf (a ++ b) = startsOf a ++ startsOf b := by
  unfold startsOf
  exact List.filterMap_append a b _

/-- Claim C6: FIFO processing: with the mpsc channel modelled as the ordered
list of receive results, the Worker begins processing the Jobs in exactly
their enqueue order (given convertible paths and a runnable external binary,
so that no iteration panics). -/
theorem claim6_fifo (outpath : String) (exec : List String → Option RunOutput)
    (ps : List OsPath)
    (hexec : ∀ a, (exec a).isSome)
    (hps : ∀ p ∈ ps, ∃ s fn, osPathToStr p = some s ∧ fileName s = some fn) :
    startsOf (workerRun outpath exec (ps.map RecvResult.ok)).effects.logs =
      ps.map OsPath.debugStr := by
  induction ps with
  | nil => rfl
  | cons p ps ih =>
    obtain ⟨s, fn, h1, h2⟩ := hps p (List.mem_cons_self p ps)
    have hrest := ih (fun q hq => hps q (List.mem_cons_of_mem p hq))
    obtain ⟨out, hout⟩ :=
      Option.isSome_iff_exists.mp (hexec (ffmpegArgs s (derivedOutfile outpath fn)))
    have hstep : ∃ mid : LogEntry,
        (∀ q : String, mid ≠ LogEntry.procStart q)
        ∧ workerStep outpath exec (RecvResult.ok p) =
          Outcome.ok ⟨[ffmpegArgs s (derivedOutfile outpath fn)],
            [LogEntry.procStart p.debugStr, mid,
             LogEntry.procDone p.debugStr]⟩ := by
      cases hsucc : out.success
      · exact ⟨LogEntry.transcodeFail out.stderr, fun q h => LogEntry.noConfusion h,
          by simp [workerStep, transcoder, h1, h2, hout, hsucc, Effects.app]⟩
      · exact ⟨LogEntry.transcodeOk (derivedOutfile outpath fn),
          fun q h => LogEntry.noConfusion h,
          by simp [workerStep, transcoder, h1, h2, hout, hsucc, Effects.app]⟩
    obtain ⟨mid, hmid, hstep⟩ := hstep
    have hmid2 : startsOf [LogEntry.procStart p.debugStr, mid,
        LogEntry.procDone p.debugStr] = [p.debugStr] := by
      cases mid <;> first | rfl | exact absurd rfl (hmid _)
    simp only [List.map_cons, workerRun, hstep, Outcome.seq_effects, Effects.app]
    rw [startsOf_append, hmid2, hrest]
    rfl

/-- Claim C6 witness: a.wav then b.wav are started in that order. -/
theorem claim6_witness :
    startsOf (workerRun "out" execOkRun
        ([OsPath.utf8 "a.wav", OsPath.utf8 "b.wav"].map RecvResult.ok)).effects.logs =
      [OsPath.utf8 "a.wav", OsPath.utf8 "b.wav"].map OsPath.debugStr :=
  claim6_fifo "out" execOkRun [OsPath.utf8 "a.wav", OsPath.utf8 "b.wav"]
    (fun _ => rfl)
    (fun p hp => by
      rcases List.mem_cons.mp hp with h | h
      · subst h; exact ⟨"a.wav", "a.wav", rfl, rfl⟩
      · rcases List.mem_cons.mp h with h2 | h2
        · subst h2; exact ⟨"b.wav", "b.wav", rfl, rfl⟩
        · exact absurd h2 (List.not_mem_nil p))
